import Mathlib

/-!
Verification development for the `breaker_machines` native core
(`src/ext/breaker_machines_native/core/src/`), a three-state circuit
breaker (Closed, Open, HalfOpen) driven by a sliding-window event store.

The Rust core is shallowly embedded below:

* `record_event`, `count_events` follow `storage.rs` (`MemoryStorage`),
  with one circuit's log as a `List Event` and the monotonic clock
  reading passed explicitly as a rational number.
* `should_open`, `should_close`, `timeout_elapsed` follow the guards in
  `circuit.rs` (`Circuit<Closed>::should_open`,
  `Circuit<HalfOpen>::should_close`, `Circuit<Open>::timeout_elapsed`).
  Rust `f64` values (times, durations, thresholds) are modelled as `ℚ`.
* `CircuitBreaker`'s public API (`call`, `execute_call`,
  `record_success_and_maybe_close`, `record_failure_and_maybe_trip`,
  `record_success`, `record_failure`, `check_and_trip`, `reset`) is
  embedded as pure state-passing functions on `Breaker`.  The user
  operation, the optional fallback and the optional failure classifier
  are inputs of each call; the monotonic clock readings a call performs
  are gathered in a `Times` record.
* The `state_machine!` declaration in `circuit.rs` (transition table:
  Trip from Closed/HalfOpen to Open guarded by `should_open`,
  AttemptReset from Open to HalfOpen guarded by `timeout_elapsed`,
  Close from HalfOpen to Closed guarded by `should_close`; an event
  whose guard fails, or that is sent in a state outside its `from`
  list, leaves the state unchanged and reports failure) is inlined at
  each `machine.handle` site, with per-state data initialised to its
  default on entry as the crate's own tests assert
  (`consecutive_successes = 0` on entry to HalfOpen, `opened_at`
  stamped by `mark_open`).
-/

namespace BreakerMachines

/-- `EventKind` from `lib.rs`: outcome tag of a recorded event. -/
inductive EventKind : Type where
  | success : EventKind
  | failure : EventKind
deriving DecidableEq

/-- `Event` from `lib.rs`: a recorded call outcome.  `f64` seconds are
modelled as `ℚ`. -/
structure Event : Type where
  kind : EventKind
  timestamp : ℚ
  duration : ℚ
deriving DecidableEq

/-- `Config` from `circuit.rs`. -/
structure Config : Type where
  failure_threshold : Option ℕ
  failure_rate_threshold : Option ℚ
  minimum_calls : ℕ
  failure_window_secs : ℚ
  half_open_timeout_secs : ℚ
  success_threshold : ℕ
  jitter_factor : ℚ
deriving DecidableEq

/-- `Config::default()` from `circuit.rs`. -/
def Config.default : Config :=
  { failure_threshold := some 5
    failure_rate_threshold := none
    minimum_calls := 20
    failure_window_secs := 60
    half_open_timeout_secs := 30
    success_threshold := 2
    jitter_factor := 0 }

/-- `MemoryStorage::record_event` from `storage.rs`, for one circuit's
log: push the new event, then if the length exceeds `max_events` drain
the oldest `max(max_events / 10, 1)` events from the front. -/
def record_event (max_events : ℕ) (events : List Event)
    (kind : EventKind) (now duration : ℚ) : List Event :=
  let events' := events ++ [⟨kind, now, duration⟩]
  if events'.length > max_events then
    events'.drop (Nat.max (max_events / 10) 1)
  else
    events'

/-- `MemoryStorage::count_events` from `storage.rs`: number of events of
the given kind with `timestamp ≥ now − window_seconds`. -/
def count_events (events : List Event) (kind : EventKind)
    (now window_seconds : ℚ) : ℕ :=
  (events.filter
    (fun e => e.kind == kind && decide (e.timestamp ≥ now - window_seconds))).length

/-- `MemoryStorage::failure_count` from `storage.rs`. -/
def failure_count (events : List Event) (now window_seconds : ℚ) : ℕ :=
  count_events events EventKind.failure now window_seconds

/-- `MemoryStorage::success_count` from `storage.rs`. -/
def success_count (events : List Event) (now window_seconds : ℚ) : ℕ :=
  count_events events EventKind.success now window_seconds

/-- The `should_open` guard from `circuit.rs` (identical on
`Circuit<Closed>` and `Circuit<HalfOpen>`): the absolute-count check
returns true first; otherwise the rate check runs, substituting rate 0
when the windowed total is 0. -/
def should_open (config : Config) (events : List Event) (now : ℚ) : Bool :=
  let failures := failure_count events now config.failure_window_secs
  if (match config.failure_threshold with
      | some threshold => decide (failures ≥ threshold)
      | none => false) then
    true
  else
    match config.failure_rate_threshold with
    | some rate_threshold =>
        let successes := success_count events now config.failure_window_secs
        let total := failures + successes
        if total ≥ config.minimum_calls then
          let failure_rate : ℚ :=
            if total > 0 then (failures : ℚ) / (total : ℚ) else 0
          decide (failure_rate ≥ rate_threshold)
        else
          false
    | none => false

/-- The `should_close` guard from `circuit.rs`
(`Circuit<HalfOpen>::should_close`). -/
def should_close (config : Config) (consecutive_successes : ℕ) : Bool :=
  decide (consecutive_successes ≥ config.success_threshold)

/-- The `timeout_elapsed` guard from `circuit.rs`
(`Circuit<Open>::timeout_elapsed`).  `jitter_draw` stands for the
jittered timeout the external `chrono_machines` crate computes when
`jitter_factor > 0` (that crate is outside `src/`; the parameter keeps
the jittered branch abstract).  With `jitter_factor = 0` the source's
else branch uses exactly `half_open_timeout_secs`. -/
def timeout_elapsed (config : Config) (now opened_at jitter_draw : ℚ) : Bool :=
  let elapsed := now - opened_at
  let timeout_secs :=
    if config.jitter_factor > 0 then jitter_draw else config.half_open_timeout_secs
  decide (elapsed ≥ timeout_secs)

/-- Machine state with its per-state data, per the `state_machine!`
declaration and `OpenData` / `HalfOpenData` in `circuit.rs`. -/
inductive CState : Type where
  | Closed : CState
  | Open (opened_at : ℚ) : CState
  | HalfOpen (consecutive_successes : ℕ) : CState
deriving DecidableEq

/-- `BulkheadSemaphore` from `bulkhead.rs`: fixed `limit`, current
`acquired` count. -/
structure Bulkhead : Type where
  limit : ℕ
  acquired : ℕ
deriving DecidableEq

/-- `BulkheadSemaphore::try_acquire` from `bulkhead.rs`, sequentially:
the CAS loop returns no permit when `acquired ≥ limit`, otherwise it
increments `acquired` and returns the guard. -/
def try_acquire (bh : Bulkhead) : Option Bulkhead :=
  if bh.acquired ≥ bh.limit then none
  else some { bh with acquired := bh.acquired + 1 }

/-- `CircuitError` from `errors.rs`. -/
inductive CircuitError (E : Type) : Type where
  | Open (circuit : String) (opened_at : ℚ) : CircuitError E
  | HalfOpenLimitReached (circuit : String) : CircuitError E
  | BulkheadFull (circuit : String) (limit : ℕ) : CircuitError E
  | Execution (e : E) : CircuitError E
deriving DecidableEq

/-- One circuit breaker: machine state plus the parts of
`CircuitContext` that carry data (`name`, `config`, the storage log for
this circuit with its `max_events` cap, and the optional bulkhead).
The classifier and fallback are closures and are supplied per call. -/
structure Breaker : Type where
  name : String
  config : Config
  max_events : ℕ
  state : CState
  events : List Event
  bulkhead : Option Bulkhead
deriving DecidableEq

/-- The monotonic-clock readings one API call performs, in the order
`CircuitBreaker::call` / `execute_call` take them: `guard_now` inside
the AttemptReset guard, `start` before the operation, `finish` after it
(duration = finish − start), `record` as the stored event's timestamp,
`trip_now` inside the Trip guard's window counts, `stamp` in
`mark_open`, and `jitter_draw` the jittered-timeout sample. -/
structure Times : Type where
  guard_now : ℚ
  start : ℚ
  finish : ℚ
  record : ℚ
  trip_now : ℚ
  stamp : ℚ
  jitter_draw : ℚ
deriving DecidableEq

/-- `CircuitBreaker::execute_call` from `circuit.rs`: run the
operation; on success record it and, in HalfOpen, increment
`consecutive_successes` and attempt Close; on failure consult the
classifier (absent classifier means always trip), and if it agrees
record the failure and attempt Trip, stamping `opened_at` via
`mark_open` when it fires, or resetting `consecutive_successes` to 0
when it does not fire and the state is HalfOpen. -/
def execute_call {T E : Type} (b : Breaker) (t : Times)
    (outcome : Except E T) (classifier : Option (E → ℚ → Bool)) :
    Except (CircuitError E) T × Breaker :=
  let duration := t.finish - t.start
  match outcome with
  | Except.ok v =>
      let events1 := record_event b.max_events b.events EventKind.success t.record duration
      match b.state with
      | CState.HalfOpen n =>
          if should_close b.config (n + 1) then
            (Except.ok v, { b with events := events1, state := CState.Closed })
          else
            (Except.ok v, { b with events := events1, state := CState.HalfOpen (n + 1) })
      | _ => (Except.ok v, { b with events := events1 })
  | Except.error e =>
      let trips := match classifier with
        | some c => c e duration
        | none => true
      if trips then
        let events1 := record_event b.max_events b.events EventKind.failure t.record duration
        match b.state with
        | CState.Closed =>
            if should_open b.config events1 t.trip_now then
              (Except.error (CircuitError.Execution e),
                { b with events := events1, state := CState.Open t.stamp })
            else
              (Except.error (CircuitError.Execution e), { b with events := events1 })
        | CState.HalfOpen _ =>
            if should_open b.config events1 t.trip_now then
              (Except.error (CircuitError.Execution e),
                { b with events := events1, state := CState.Open t.stamp })
            else
              (Except.error (CircuitError.Execution e),
                { b with events := events1, state := CState.HalfOpen 0 })
        | CState.Open _ =>
            (Except.error (CircuitError.Execution e), { b with events := events1 })
      else
        (Except.error (CircuitError.Execution e), b)

/-- The lazy Open→HalfOpen step at the top of `CircuitBreaker::call`:
`machine.handle(AttemptReset)`, which fires (entering HalfOpen with
`consecutive_successes = 0`) iff the state is Open and `timeout_elapsed`
holds. -/
def attempt_reset (b : Breaker) (t : Times) : Breaker :=
  match b.state with
  | CState.Open opened_at =>
      if timeout_elapsed b.config t.guard_now opened_at t.jitter_draw then
        { b with state := CState.HalfOpen 0 }
      else b
  | _ => b

/-- The state dispatch of `CircuitBreaker::call` after the lazy
AttemptReset: Open uses the fallback if provided, else fails with
`Open`; HalfOpen at the success threshold fails with
`HalfOpenLimitReached`; otherwise the operation executes. -/
def dispatch {T E : Type} (b : Breaker) (t : Times) (outcome : Except E T)
    (fallback : Option (Except E T)) (classifier : Option (E → ℚ → Bool)) :
    Except (CircuitError E) T × Breaker :=
  match b.state with
  | CState.Open opened_at =>
      match fallback with
      | some fr => (fr.mapError CircuitError.Execution, b)
      | none => (Except.error (CircuitError.Open b.name opened_at), b)
  | CState.HalfOpen n =>
      if n ≥ b.config.success_threshold then
        (Except.error (CircuitError.HalfOpenLimitReached b.name), b)
      else
        execute_call b t outcome classifier
  | CState.Closed => execute_call b t outcome classifier

/-- `CircuitBreaker::call` from `circuit.rs`: bulkhead gate first (a
permit acquired here is scope-released on every exit path, so the
returned breaker carries the bulkhead counter unchanged), then the lazy
Open→HalfOpen check, then the state dispatch.  `outcome` is the value
the user operation returns if invoked, `fallback` the value the
fallback closure returns if invoked, `classifier` the configured
failure classifier's verdict as a function of the error and duration. -/
def call {T E : Type} (b : Breaker) (t : Times) (outcome : Except E T)
    (fallback : Option (Except E T)) (classifier : Option (E → ℚ → Bool)) :
    Except (CircuitError E) T × Breaker :=
  match b.bulkhead with
  | some bh =>
      match try_acquire bh with
      | none => (Except.error (CircuitError.BulkheadFull b.name bh.limit), b)
      | some _ => dispatch (attempt_reset b t) t outcome fallback classifier
  | none => dispatch (attempt_reset b t) t outcome fallback classifier

/-- `CircuitBreaker::record_success_and_maybe_close` from `circuit.rs`. -/
def record_success_and_maybe_close (b : Breaker) (t : Times) (duration : ℚ) : Breaker :=
  let events1 := record_event b.max_events b.events EventKind.success t.record duration
  match b.state with
  | CState.HalfOpen n =>
      if should_close b.config (n + 1) then
        { b with events := events1, state := CState.Closed }
      else
        { b with events := events1, state := CState.HalfOpen (n + 1) }
  | _ => { b with events := events1 }

/-- `CircuitBreaker::record_failure_and_maybe_trip` from `circuit.rs`. -/
def record_failure_and_maybe_trip (b : Breaker) (t : Times) (duration : ℚ) : Breaker :=
  let events1 := record_event b.max_events b.events EventKind.failure t.record duration
  match b.state with
  | CState.Closed =>
      if should_open b.config events1 t.trip_now then
        { b with events := events1, state := CState.Open t.stamp }
      else
        { b with events := events1 }
  | CState.HalfOpen _ =>
      if should_open b.config events1 t.trip_now then
        { b with events := events1, state := CState.Open t.stamp }
      else
        { b with events := events1, state := CState.HalfOpen 0 }
  | CState.Open _ => { b with events := events1 }

/-- `CircuitBreaker::record_success` from `circuit.rs` (storage only). -/
def record_success (b : Breaker) (t : Times) (duration : ℚ) : Breaker :=
  { b with events := record_event b.max_events b.events EventKind.success t.record duration }

/-- `CircuitBreaker::record_failure` from `circuit.rs` (storage only). -/
def record_failure (b : Breaker) (t : Times) (duration : ℚ) : Breaker :=
  { b with events := record_event b.max_events b.events EventKind.failure t.record duration }

/-- `CircuitBreaker::check_and_trip` from `circuit.rs`. -/
def check_and_trip (b : Breaker) (t : Times) : Bool × Breaker :=
  match b.state with
  | CState.Closed =>
      if should_open b.config b.events t.trip_now then
        (true, { b with state := CState.Open t.stamp })
      else (false, b)
  | CState.HalfOpen _ =>
      if should_open b.config b.events t.trip_now then
        (true, { b with state := CState.Open t.stamp })
      else (false, b)
  | CState.Open _ => (false, b)

/-- `CircuitBreaker::reset` from `circuit.rs`: clear the circuit's log
and recreate the machine in Closed. -/
def reset (b : Breaker) : Breaker :=
  { b with events := [], state := CState.Closed }

/-- One public-API step on a breaker, covering every state-mutating
operation of `CircuitBreaker`. -/
inductive BStep : Breaker → Breaker → Prop where
  | callStep {T E : Type} (b : Breaker) (t : Times) (outcome : Except E T)
      (fallback : Option (Except E T)) (classifier : Option (E → ℚ → Bool)) :
      BStep b (call b t outcome fallback classifier).2
  | recordSuccessClose (b : Breaker) (t : Times) (duration : ℚ) :
      BStep b (record_success_and_maybe_close b t duration)
  | recordFailureTrip (b : Breaker) (t : Times) (duration : ℚ) :
      BStep b (record_failure_and_maybe_trip b t duration)
  | recordSuccessOnly (b : Breaker) (t : Times) (duration : ℚ) :
      BStep b (record_success b t duration)
  | recordFailureOnly (b : Breaker) (t : Times) (duration : ℚ) :
      BStep b (record_failure b t duration)
  | checkTrip (b : Breaker) (t : Times) : BStep b (check_and_trip b t).2
  | resetStep (b : Breaker) : BStep b (reset b)

/-- Reachability through public-API call sequences. -/
def Reach (b0 b : Breaker) : Prop := Relation.ReflTransGen BStep b0 b

/-- A freshly built breaker starts in Closed
(`DynamicCircuit::new`, `initial: Closed`). -/
def IsInitial (b : Breaker) : Prop := b.state = CState.Closed

/-! ### Guard lemmas -/

/-- The `if total > 0` branch of `should_open` computes the same value
as unguarded rational division: when the total is 0 the failure count
is also 0 and `0 / 0 = 0` in `ℚ`. -/
lemma rate_if_eq (F S : ℕ) :
    (if 0 < F ∨ 0 < S then (F : ℚ) / ((F : ℚ) + (S : ℚ)) else 0) =
      (F : ℚ) / ((F : ℚ) + (S : ℚ)) := by
  split
  · rfl
  · rename_i h
    have hF : F = 0 := by omega
    have hS : S = 0 := by omega
    simp [hF, hS]

/-- C1: `should_open` returns true iff the absolute rule holds (a
`failure_threshold` is set and the windowed failure count reaches it)
or the rate rule holds (a `failure_rate_threshold` is set, the windowed
total reaches `minimum_calls`, and the failure ratio reaches the
threshold).  The ratio `F / T` is read with the `ℚ` convention
`0 / 0 = 0`, which coincides with the source's substitution of rate
`0.0` when the total is 0.  Either rule alone makes the guard true (the
source checks the absolute rule first, then the rate rule). -/
theorem should_open_iff (config : Config) (events : List Event) (now : ℚ) :
    should_open config events now = true ↔
      (∃ thr, config.failure_threshold = some thr ∧
        thr ≤ failure_count events now config.failure_window_secs) ∨
      (∃ r, config.failure_rate_threshold = some r ∧
        config.minimum_calls ≤
          failure_count events now config.failure_window_secs +
            success_count events now config.failure_window_secs ∧
        r ≤ (failure_count events now config.failure_window_secs : ℚ) /
          ((failure_count events now config.failure_window_secs +
              success_count events now config.failure_window_secs : ℕ) : ℚ)) := by
  unfold should_open
  rcases hft : config.failure_threshold with _ | thr <;>
    rcases hrt : config.failure_rate_threshold with _ | r <;>
      simp only [hft, hrt] <;>
      simp [rate_if_eq, ge_iff_le, decide_eq_true_eq]

/-- C4 counterexample configuration: no absolute threshold,
`failure_rate_threshold = 0`, `minimum_calls = 0`. -/
def degenerateRateConfig : Config :=
  { failure_threshold := none
    failure_rate_threshold := some 0
    minimum_calls := 0
    failure_window_secs := 60
    half_open_timeout_secs := 30
    success_threshold := 2
    jitter_factor := 0 }

/-- C4 counterexample: with `failure_threshold` unset,
`failure_rate_threshold = 0` and `minimum_calls = 0`, `should_open` on
an empty event log returns `true`, not `false` — the source substitutes
rate `0.0` for an empty window and `0.0 ≥ 0.0` holds, so the rate rule
does not short-circuit false in this degenerate configuration. -/
theorem should_open_empty_window_counterexample :
    should_open degenerateRateConfig [] 0 = true := by decide

/-- C4 (amended): with `failure_rate_threshold` set and no events in
the window (both windowed counts are 0), the rate rule evaluates to
false without dividing by zero — and hence `should_open` returns false
when `failure_threshold` is also unset — provided `minimum_calls ≥ 1`
or the rate threshold is positive.  (In the degenerate configuration
`minimum_calls = 0` with a non-positive rate threshold, the source
compares the substituted rate `0.0` against the threshold and returns
true instead.) -/
theorem should_open_empty_window (config : Config) (events : List Event) (now : ℚ)
    (hft : config.failure_threshold = none)
    (hF : failure_count events now config.failure_window_secs = 0)
    (hS : success_count events now config.failure_window_secs = 0)
    (hnd : 1 ≤ config.minimum_calls ∨
      ∀ r, config.failure_rate_threshold = some r → 0 < r) :
    should_open config events now = false := by
  unfold should_open
  rcases hrt : config.failure_rate_threshold with _ | r <;>
    simp only [hft, hrt, hF, hS] <;> simp
  rcases hnd with hmin | hr
  · intro h
    omega
  · intro _
    exact hr r hrt

/-- C4 witness input: rate threshold 1/2, `minimum_calls = 0`. -/
def rateOnlyConfig : Config :=
  { failure_threshold := none
    failure_rate_threshold := some (1 / 2)
    minimum_calls := 0
    failure_window_secs := 60
    half_open_timeout_secs := 30
    success_threshold := 2
    jitter_factor := 0 }

/-- Witness for the amended C4 at a concrete input. -/
theorem should_open_empty_window_witness :
    should_open rateOnlyConfig [] 0 = false :=
  should_open_empty_window rateOnlyConfig [] 0 rfl (by decide) (by decide)
    (Or.inr (by intro r hr; cases hr; norm_num))

/-- C9: with `jitter_factor = 0`, `timeout_elapsed` is true iff the
monotonic time elapsed since `opened_at` is at least the configured
`half_open_timeout_secs` exactly — no randomisation enters (the
`jitter_draw` parameter is unused in this branch). -/
theorem timeout_elapsed_zero_jitter (config : Config)
    (now opened_at jitter_draw : ℚ) (h : config.jitter_factor = 0) :
    (timeout_elapsed config now opened_at jitter_draw = true ↔
      config.half_open_timeout_secs ≤ now - opened_at) := by
  unfold timeout_elapsed
  simp [h]

/-- Witness for C9 at a concrete input: base timeout 30, elapsed 99. -/
theorem timeout_elapsed_zero_jitter_witness :
    timeout_elapsed Config.default 100 1 77 = true :=
  (timeout_elapsed_zero_jitter Config.default 100 1 77 rfl).mpr (by norm_num [Config.default])

/-- C8: for a cap `max_events ≥ 1` and a log within the cap,
`record_event` appends the new event last; when the append makes the
length exceed the cap, exactly `max(1, max_events / 10)` events are
dropped from the oldest end (the front) and otherwise nothing is
dropped; the newest event is never dropped (it is always the last
element afterwards); and the resulting length is at most the cap. -/
theorem record_event_spec (m : ℕ) (evs : List Event) (k : EventKind) (ts d : ℚ)
    (hm : 1 ≤ m) (hlen : evs.length ≤ m) :
    (record_event m evs k ts d).getLast? = some ⟨k, ts, d⟩ ∧
    (evs.length + 1 ≤ m → record_event m evs k ts d = evs ++ [(⟨k, ts, d⟩ : Event)]) ∧
    (m < evs.length + 1 →
      record_event m evs k ts d =
        (evs ++ [(⟨k, ts, d⟩ : Event)]).drop (Nat.max (m / 10) 1) ∧
      (record_event m evs k ts d).length + Nat.max (m / 10) 1 = evs.length + 1) ∧
    (record_event m evs k ts d).length ≤ m := by
  have hdiv : m / 10 ≤ m := Nat.div_le_self m 10
  have hkm : Nat.max (m / 10) 1 ≤ m := Nat.max_le.mpr ⟨hdiv, hm⟩
  have hk1 : 1 ≤ Nat.max (m / 10) 1 := Nat.le_max_right _ _
  have hlen1 : (evs ++ [(⟨k, ts, d⟩ : Event)]).length = evs.length + 1 := by
    simp
  unfold record_event
  by_cases hc : (evs ++ [(⟨k, ts, d⟩ : Event)]).length > m
  · rw [if_pos hc]
    have hfull : evs.length = m := by omega
    have hnd : ¬ (evs ++ [(⟨k, ts, d⟩ : Event)]).length ≤ Nat.max (m / 10) 1 := by
      omega
    refine ⟨?_, ?_, ?_, ?_⟩
    · rw [List.getLast?_drop, if_neg hnd, List.getLast?_concat]
    · intro h; omega
    · intro _
      refine ⟨rfl, ?_⟩
      rw [List.length_drop]
      omega
    · rw [List.length_drop]
      omega
  · rw [if_neg hc]
    refine ⟨?_, ?_, ?_, ?_⟩
    · exact List.getLast?_concat _
    · intro _; rfl
    · intro h; omega
    · omega

/-- A log of three events used to exercise the trimming branch. -/
def trimLog : List Event :=
  [⟨EventKind.success, 0, 0⟩, ⟨EventKind.failure, 1, 0⟩, ⟨EventKind.success, 2, 0⟩]

/-- Witness for C8 at a concrete input: cap 3, a full log of 3 events,
one more recorded; drop count is `max(3 / 10, 1) = 1`. -/
theorem record_event_spec_witness :
    (record_event 3 trimLog EventKind.failure 3 0).getLast? =
      some ⟨EventKind.failure, 3, 0⟩ ∧
    (record_event 3 trimLog EventKind.failure 3 0).length ≤ 3 := by
  have h := record_event_spec 3 trimLog EventKind.failure 3 0 (by decide) (by decide)
  exact ⟨h.1, h.2.2.2⟩

/-! ### Call-pipeline theorems -/

/-- All-zero clock readings, for concrete witnesses. -/
def tZero : Times :=
  { guard_now := 0, start := 0, finish := 0, record := 0, trip_now := 0
    stamp := 0, jitter_draw := 0 }

/-- The breaker carries no bulkhead, or its bulkhead still grants a
permit: the bulkhead gate of `call` admits the call. -/
def BulkheadAdmits (b : Breaker) : Prop :=
  ∀ bh, b.bulkhead = some bh → try_acquire bh ≠ none

/-- C6: when the configured bulkhead is saturated (`try_acquire`
returns no permit), `call` fails with `BulkheadFull` carrying the
circuit name and the bulkhead limit, and the breaker — state machine
and storage alike — is returned exactly unchanged.  The conclusion
holds for every `outcome`, `fallback` and `classifier`, so the result
does not depend on the wrapped operation at all: it is never invoked
and nothing is recorded. -/
theorem bulkhead_full_frame {T E : Type} (b : Breaker) (t : Times)
    (outcome : Except E T) (fallback : Option (Except E T))
    (classifier : Option (E → ℚ → Bool)) (bh : Bulkhead)
    (hb : b.bulkhead = some bh) (hfull : try_acquire bh = none) :
    call b t outcome fallback classifier =
      (Except.error (CircuitError.BulkheadFull b.name bh.limit), b) := by
  simp [call, hb, hfull]

/-- A breaker whose bulkhead (limit 2) is fully acquired. -/
def saturatedBreaker : Breaker :=
  { name := "api", config := Config.default, max_events := 1000
    state := CState.Closed, events := [], bulkhead := some ⟨2, 2⟩ }

/-- Witness for C6 at a concrete input. -/
theorem bulkhead_full_frame_witness :
    call saturatedBreaker tZero (Except.ok (0 : ℕ))
        (none : Option (Except ℕ ℕ)) none =
      (Except.error (CircuitError.BulkheadFull "api" 2), saturatedBreaker) :=
  bulkhead_full_frame saturatedBreaker tZero (Except.ok 0) none none ⟨2, 2⟩ rfl rfl

/-- C10: a call dispatched in Open (the state is Open and the timeout
guard does not fire) with a fallback provided returns the fallback's
result directly — `Ok v` on success, `Execution e` on failure — and the
breaker is returned exactly unchanged: nothing is recorded, no
transition is driven.  The conclusion is uniform in `outcome` and
`classifier`, so the wrapped operation is never invoked and a fallback
failure is never passed to the classifier; and the call never returns
the `Open` error in this case. -/
theorem open_with_fallback {T E : Type} (b : Breaker) (t : Times)
    (outcome : Except E T) (fr : Except E T)
    (classifier : Option (E → ℚ → Bool)) (oa : ℚ)
    (hs : b.state = CState.Open oa)
    (hto : timeout_elapsed b.config t.guard_now oa t.jitter_draw = false)
    (hbk : BulkheadAdmits b) :
    call b t outcome (some fr) classifier =
      (fr.mapError CircuitError.Execution, b) ∧
    (∀ v, fr = Except.ok v →
      (call b t outcome (some fr) classifier).1 = Except.ok v) ∧
    (∀ e, fr = Except.error e →
      (call b t outcome (some fr) classifier).1 =
        Except.error (CircuitError.Execution e)) ∧
    ∀ c oa2, (call b t outcome (some fr) classifier).1 ≠
      Except.error (CircuitError.Open c oa2) := by
  have hreset : attempt_reset b t = b := by
    simp [attempt_reset, hs, hto]
  have hdisp : dispatch b t outcome (some fr) classifier =
      (fr.mapError CircuitError.Execution, b) := by
    simp [dispatch, hs]
  have hmain : call b t outcome (some fr) classifier =
      (fr.mapError CircuitError.Execution, b) := by
    rcases hbh : b.bulkhead with _ | bh
    · simp [call, hbh, hreset, hdisp]
    · obtain ⟨x, hx⟩ := Option.ne_none_iff_exists'.mp (hbk bh hbh)
      simp [call, hbh, hx, hreset, hdisp]
  refine ⟨hmain, ?_, ?_, ?_⟩
  · intro v hv
    rw [hmain, hv]
    rfl
  · intro e he
    rw [hmain, he]
    rfl
  · intro c oa2
    rw [hmain]
    rcases fr with v | e <;> simp [Except.mapError]

/-- A breaker sitting in Open, opened at time 0. -/
def openBreaker : Breaker :=
  { name := "api", config := Config.default, max_events := 1000
    state := CState.Open 0, events := [], bulkhead := none }

/-- Clock readings with 10 seconds on the guard's clock. -/
def tTen : Times :=
  { guard_now := 10, start := 0, finish := 0, record := 0, trip_now := 0
    stamp := 0, jitter_draw := 0 }

/-- Witness for C10 at a concrete input: 10 seconds elapsed of a
30-second timeout, fallback succeeds with 7. -/
theorem open_with_fallback_witness :
    call openBreaker tTen (Except.error (1 : ℕ))
        (some (Except.ok (7 : ℕ))) none =
      ((Except.ok (7 : ℕ) : Except ℕ ℕ).mapError CircuitError.Execution,
        openBreaker) :=
  (open_with_fallback openBreaker tTen
    (Except.error 1) (Except.ok 7) none 0 rfl
    (by norm_num [timeout_elapsed, openBreaker, tTen, Config.default])
    (by intro bh hbh; simp [openBreaker] at hbh)).1

/-- C3: a call executed in HalfOpen whose operation fails, is counted
by the classifier (verdict true, or no classifier), and whose recorded
failure does not fire the Trip guard, leaves the state HalfOpen with
`consecutive_successes = 0` — whatever its value before — and surfaces
the error as `Execution`. -/
theorem halfOpen_failed_probe_resets {T E : Type} (b : Breaker) (t : Times)
    (e : E) (fallback : Option (Except E T))
    (classifier : Option (E → ℚ → Bool)) (n : ℕ)
    (hs : b.state = CState.HalfOpen n)
    (hn : n < b.config.success_threshold)
    (hbk : BulkheadAdmits b)
    (hcount : (match classifier with
      | some c => c e (t.finish - t.start)
      | none => true) = true)
    (hguard : should_open b.config
      (record_event b.max_events b.events EventKind.failure t.record
        (t.finish - t.start)) t.trip_now = false) :
    (call b t (Except.error e : Except E T) fallback classifier).2.state =
      CState.HalfOpen 0 ∧
    (call b t (Except.error e : Except E T) fallback classifier).1 =
      Except.error (CircuitError.Execution e) := by
  have hreset : attempt_reset b t = b := by
    simp [attempt_reset, hs]
  have hexec : execute_call b t (Except.error e : Except E T) classifier =
      (Except.error (CircuitError.Execution e),
        { b with
            events := record_event b.max_events b.events EventKind.failure
              t.record (t.finish - t.start)
            state := CState.HalfOpen 0 }) := by
    simp only [execute_call, hcount, if_true, hs, hguard]
    simp
  have hdisp : dispatch b t (Except.error e : Except E T) fallback classifier =
      execute_call b t (Except.error e : Except E T) classifier := by
    simp only [dispatch, hs]
    rw [if_neg (not_le.mpr hn)]
  have hmain : call b t (Except.error e : Except E T) fallback classifier =
      execute_call b t (Except.error e : Except E T) classifier := by
    rcases hbh : b.bulkhead with _ | bh
    · simp [call, hbh, hreset, hdisp]
    · obtain ⟨x, hx⟩ := Option.ne_none_iff_exists'.mp (hbk bh hbh)
      simp [call, hbh, hx, hreset, hdisp]
  rw [hmain, hexec]
  exact ⟨rfl, rfl⟩

/-- A breaker probing in HalfOpen with one accumulated success. -/
def probingBreaker : Breaker :=
  { name := "api", config := Config.default, max_events := 1000
    state := CState.HalfOpen 1, events := [], bulkhead := none }

/-- Witness for C3 at a concrete input: HalfOpen with
`consecutive_successes = 1`, a counted failure that leaves the Trip
guard false (1 failure < threshold 5). -/
theorem halfOpen_failed_probe_resets_witness :
    (call probingBreaker tZero (Except.error "boom")
        (none : Option (Except String ℕ)) none).2.state = CState.HalfOpen 0 :=
  (halfOpen_failed_probe_resets probingBreaker tZero "boom" none none 1
    rfl (by norm_num [probingBreaker, Config.default])
    (by intro bh hbh; simp [probingBreaker] at hbh)
    rfl
    (by norm_num [should_open, failure_count, success_count, count_events,
      record_event, probingBreaker, Config.default, tZero])).1

/-- A breaker in Open (opened at 0) whose half-open timeout has long
lapsed by clock reading 100. -/
def lapsedBreaker : Breaker :=
  { name := "api", config := Config.default, max_events := 1000
    state := CState.Open 0, events := [], bulkhead := none }

/-- Clock readings with 100 seconds on the guard's clock. -/
def tHundred : Times :=
  { guard_now := 100, start := 0, finish := 0, record := 0, trip_now := 0
    stamp := 0, jitter_draw := 0 }

/-- C7 counterexample: a call entering in Open with the timeout lapsed
first moves to HalfOpen via the lazy AttemptReset, then executes; when
the operation fails and the classifier says false, nothing further
changes — but the state after the call is `HalfOpen 0`, not the `Open 0`
it was before the call.  So "the state is exactly as before the call"
fails as stated, even though the suppressed failure itself drove no
recording and no transition. -/
theorem classifier_false_counterexample :
    (call lapsedBreaker tHundred (Except.error "boom" : Except String ℕ)
        none (some (fun _ _ => false))).1 =
      Except.error (CircuitError.Execution "boom") ∧
    (call lapsedBreaker tHundred (Except.error "boom" : Except String ℕ)
        none (some (fun _ _ => false))).2.state = CState.HalfOpen 0 ∧
    lapsedBreaker.state = CState.Open 0 ∧
    (call lapsedBreaker tHundred (Except.error "boom" : Except String ℕ)
        none (some (fun _ _ => false))).2.state ≠ lapsedBreaker.state := by
  have h : call lapsedBreaker tHundred
      (Except.error "boom" : Except String ℕ) none (some (fun _ _ => false)) =
      (Except.error (CircuitError.Execution "boom"),
        { lapsedBreaker with state := CState.HalfOpen 0 }) := by
    norm_num [call, attempt_reset, dispatch, execute_call, timeout_elapsed,
      lapsedBreaker, tHundred, Config.default]
  rw [h]
  refine ⟨rfl, rfl, rfl, ?_⟩
  simp [lapsedBreaker]

/-- C7 (amended): when the operation fails, a classifier is configured
and its verdict is false, the call surfaces the error unchanged as
`Execution`, records nothing, attempts no Trip, and leaves the breaker
exactly as it was when the operation was dispatched — which is exactly
the pre-call breaker whenever the call did not enter in Open (the lazy
Open→HalfOpen timeout transition at call entry is the one state change
a suppressed failure cannot undo).  Stated over the execution stage
(`execute_call`) for every state, and over full `call` for Closed and
admitted HalfOpen entries. -/
theorem classifier_false_frame {T E : Type} (b : Breaker) (t : Times)
    (e : E) (c : E → ℚ → Bool)
    (hc : c e (t.finish - t.start) = false)
    (hbk : BulkheadAdmits b) :
    execute_call b t (Except.error e : Except E T) (some c) =
      (Except.error (CircuitError.Execution e), b) ∧
    (b.state = CState.Closed →
      ∀ fallback, call b t (Except.error e : Except E T) fallback (some c) =
        (Except.error (CircuitError.Execution e), b)) ∧
    (∀ n, b.state = CState.HalfOpen n → n < b.config.success_threshold →
      ∀ fallback, call b t (Except.error e : Except E T) fallback (some c) =
        (Except.error (CircuitError.Execution e), b)) := by
  have hexec : execute_call b t (Except.error e : Except E T) (some c) =
      (Except.error (CircuitError.Execution e), b) := by
    simp [execute_call, hc]
  refine ⟨hexec, ?_, ?_⟩
  · intro hs fallback
    have hreset : attempt_reset b t = b := by
      simp [attempt_reset, hs]
    have hdisp : dispatch b t (Except.error e : Except E T) fallback (some c) =
        execute_call b t (Except.error e : Except E T) (some c) := by
      simp [dispatch, hs]
    rcases hbh : b.bulkhead with _ | bh
    · simp [call, hbh, hreset, hdisp, hexec]
    · obtain ⟨x, hx⟩ := Option.ne_none_iff_exists'.mp (hbk bh hbh)
      simp [call, hbh, hx, hreset, hdisp, hexec]
  · intro n hs hn fallback
    have hreset : attempt_reset b t = b := by
      simp [attempt_reset, hs]
    have hdisp : dispatch b t (Except.error e : Except E T) fallback (some c) =
        execute_call b t (Except.error e : Except E T) (some c) := by
      simp only [dispatch, hs]
      rw [if_neg (not_le.mpr hn)]
    rcases hbh : b.bulkhead with _ | bh
    · simp [call, hbh, hreset, hdisp, hexec]
    · obtain ⟨x, hx⟩ := Option.ne_none_iff_exists'.mp (hbk bh hbh)
      simp [call, hbh, hx, hreset, hdisp, hexec]

/-- A quiescent Closed breaker with no bulkhead. -/
def calmBreaker : Breaker :=
  { name := "api", config := Config.default, max_events := 1000
    state := CState.Closed, events := [], bulkhead := none }

/-- Witness for the amended C7 at a concrete input: Closed breaker,
failing operation, classifier verdict false. -/
theorem classifier_false_frame_witness :
    call calmBreaker tZero (Except.error "boom" : Except String ℕ)
        none (some (fun _ _ => false)) =
      (Except.error (CircuitError.Execution "boom"), calmBreaker) :=
  (classifier_false_frame calmBreaker tZero "boom" (fun _ _ => false) rfl
    (by intro bh hbh; simp [calmBreaker] at hbh)).2.1 rfl none

/-! ### Reachability invariant: HalfOpen progress stays under the
success threshold -/

/-- In HalfOpen, `consecutive_successes` is 0 (as on entry) or strictly
below the success threshold.  This is the inductive invariant behind
claims C2 and C5. -/
def StrongHO (b : Breaker) : Prop :=
  ∀ n, b.state = CState.HalfOpen n → n = 0 ∨ n < b.config.success_threshold

/-- Every operation returns the input breaker with only `events` and
`state` changed (`execute_call`). -/
lemma execute_call_snd {T E : Type} (b : Breaker) (t : Times)
    (outcome : Except E T) (classifier : Option (E → ℚ → Bool)) :
    ∃ evs st, (execute_call b t outcome classifier).2 =
      { b with events := evs, state := st } := by
  unfold execute_call
  rcases outcome with v | e <;> dsimp only <;> repeat' split
  all_goals exact ⟨_, _, rfl⟩

/-- Every operation returns the input breaker with only `events` and
`state` changed (`attempt_reset`). -/
lemma attempt_reset_snd (b : Breaker) (t : Times) :
    ∃ evs st, attempt_reset b t = { b with events := evs, state := st } := by
  unfold attempt_reset
  repeat' split
  all_goals exact ⟨_, _, rfl⟩

/-- Every operation returns the input breaker with only `events` and
`state` changed (`dispatch`). -/
lemma dispatch_snd {T E : Type} (b : Breaker) (t : Times) (outcome : Except E T)
    (fallback : Option (Except E T)) (classifier : Option (E → ℚ → Bool)) :
    ∃ evs st, (dispatch b t outcome fallback classifier).2 =
      { b with events := evs, state := st } := by
  unfold dispatch
  repeat' split
  all_goals first
    | exact ⟨_, _, rfl⟩
    | exact execute_call_snd b t outcome classifier

/-- Every operation returns the input breaker with only `events` and
`state` changed (`call`). -/
lemma call_snd {T E : Type} (b : Breaker) (t : Times) (outcome : Except E T)
    (fallback : Option (Except E T)) (classifier : Option (E → ℚ → Bool)) :
    ∃ evs st, (call b t outcome fallback classifier).2 =
      { b with events := evs, state := st } := by
  obtain ⟨evs0, st0, h0⟩ := attempt_reset_snd b t
  obtain ⟨evs, st, h⟩ :=
    dispatch_snd (attempt_reset b t) t outcome fallback classifier
  have hd : (dispatch (attempt_reset b t) t outcome fallback classifier).2 =
      { b with events := evs, state := st } := by
    rw [h, h0]
  unfold call
  repeat' split
  all_goals first
    | exact ⟨_, _, rfl⟩
    | exact ⟨evs, st, hd⟩

/-- `execute_call` preserves the invariant: a success in HalfOpen
either closes (at `n + 1 ≥ threshold`) or moves to `HalfOpen (n + 1)`
with `n + 1` still below the threshold; a counted failure moves to Open
or resets HalfOpen progress to 0. -/
lemma StrongHO_execute_call {T E : Type} (b : Breaker) (t : Times)
    (outcome : Except E T) (classifier : Option (E → ℚ → Bool))
    (h : StrongHO b) : StrongHO (execute_call b t outcome classifier).2 := by
  unfold execute_call
  rcases outcome with v | e <;> dsimp only <;> repeat' split
  all_goals intro m hm
  all_goals simp_all [StrongHO, should_close]

/-- `attempt_reset` preserves the invariant: it enters HalfOpen only
with `consecutive_successes = 0`. -/
lemma StrongHO_attempt_reset (b : Breaker) (t : Times) (h : StrongHO b) :
    StrongHO (attempt_reset b t) := by
  unfold attempt_reset
  repeat' split
  all_goals intro m hm
  all_goals simp_all [StrongHO]

/-- `dispatch` preserves the invariant. -/
lemma StrongHO_dispatch {T E : Type} (b : Breaker) (t : Times)
    (outcome : Except E T) (fallback : Option (Except E T))
    (classifier : Option (E → ℚ → Bool)) (h : StrongHO b) :
    StrongHO (dispatch b t outcome fallback classifier).2 := by
  unfold dispatch
  repeat' split
  all_goals first
    | exact h
    | exact StrongHO_execute_call b t outcome classifier h

/-- `call` preserves the invariant. -/
lemma StrongHO_call {T E : Type} (b : Breaker) (t : Times)
    (outcome : Except E T) (fallback : Option (Except E T))
    (classifier : Option (E → ℚ → Bool)) (h : StrongHO b) :
    StrongHO (call b t outcome fallback classifier).2 := by
  have hd : StrongHO (dispatch (attempt_reset b t) t outcome fallback classifier).2 := by
    have h0 : StrongHO (attempt_reset b t) := StrongHO_attempt_reset b t h
    obtain ⟨evs0, st0, he0⟩ := attempt_reset_snd b t
    exact StrongHO_dispatch _ t outcome fallback classifier h0
  unfold call
  repeat' split
  all_goals first
    | exact h
    | exact hd

/-- `record_success_and_maybe_close` preserves the invariant. -/
lemma StrongHO_record_success_and_maybe_close (b : Breaker) (t : Times)
    (duration : ℚ) (h : StrongHO b) :
    StrongHO (record_success_and_maybe_close b t duration) := by
  unfold record_success_and_maybe_close
  repeat' split
  all_goals intro m hm
  all_goals simp_all [StrongHO, should_close]

/-- `record_failure_and_maybe_trip` preserves the invariant. -/
lemma StrongHO_record_failure_and_maybe_trip (b : Breaker) (t : Times)
    (duration : ℚ) (h : StrongHO b) :
    StrongHO (record_failure_and_maybe_trip b t duration) := by
  intro m hm
  rcases hstate : b.state with _ | oa | n <;>
    cases hso : should_open b.config
      (record_event b.max_events b.events EventKind.failure t.record duration)
      t.trip_now <;>
    simp_all [record_failure_and_maybe_trip, StrongHO]

/-- `record_success` preserves the invariant. -/
lemma StrongHO_record_success (b : Breaker) (t : Times) (duration : ℚ)
    (h : StrongHO b) : StrongHO (record_success b t duration) := h

/-- `record_failure` preserves the invariant. -/
lemma StrongHO_record_failure (b : Breaker) (t : Times) (duration : ℚ)
    (h : StrongHO b) : StrongHO (record_failure b t duration) := h

/-- `check_and_trip` preserves the invariant. -/
lemma StrongHO_check_and_trip (b : Breaker) (t : Times) (h : StrongHO b) :
    StrongHO (check_and_trip b t).2 := by
  unfold check_and_trip
  repeat' split
  all_goals intro m hm
  all_goals simp_all [StrongHO]

/-- `reset` preserves the invariant. -/
lemma StrongHO_reset (b : Breaker) (h : StrongHO b) : StrongHO (reset b) := by
  intro m hm
  simp [reset] at hm

/-- Every public-API step preserves the invariant. -/
lemma StrongHO_step {b b' : Breaker} (hs : BStep b b') (h : StrongHO b) :
    StrongHO b' := by
  cases hs with
  | callStep b t outcome fallback classifier =>
      exact StrongHO_call b t outcome fallback classifier h
  | recordSuccessClose b t duration =>
      exact StrongHO_record_success_and_maybe_close b t duration h
  | recordFailureTrip b t duration =>
      exact StrongHO_record_failure_and_maybe_trip b t duration h
  | recordSuccessOnly b t duration => exact StrongHO_record_success b t duration h
  | recordFailureOnly b t duration => exact StrongHO_record_failure b t duration h
  | checkTrip b t => exact StrongHO_check_and_trip b t h
  | resetStep b => exact StrongHO_reset b h

/-- The invariant holds in every state reachable from an initial
(Closed) breaker. -/
lemma StrongHO_reach {b0 b : Breaker} (h0 : IsInitial b0) (hr : Reach b0 b) :
    StrongHO b := by
  induction hr with
  | refl =>
      intro m hm
      rw [h0] at hm
      exact absurd hm (by simp)
  | tail _ hstep ih => exact StrongHO_step hstep ih

/-- `record_success_and_maybe_close` changes only `events` and `state`. -/
lemma record_success_and_maybe_close_snd (b : Breaker) (t : Times) (duration : ℚ) :
    ∃ evs st, record_success_and_maybe_close b t duration =
      { b with events := evs, state := st } := by
  unfold record_success_and_maybe_close
  dsimp only
  repeat' split
  all_goals exact ⟨_, _, rfl⟩

/-- `record_failure_and_maybe_trip` changes only `events` and `state`. -/
lemma record_failure_and_maybe_trip_snd (b : Breaker) (t : Times) (duration : ℚ) :
    ∃ evs st, record_failure_and_maybe_trip b t duration =
      { b with events := evs, state := st } := by
  unfold record_failure_and_maybe_trip
  dsimp only
  repeat' split
  all_goals exact ⟨_, _, rfl⟩

/-- `check_and_trip` changes only `events` and `state`. -/
lemma check_and_trip_snd (b : Breaker) (t : Times) :
    ∃ evs st, (check_and_trip b t).2 = { b with events := evs, state := st } := by
  unfold check_and_trip
  repeat' split
  all_goals exact ⟨_, _, rfl⟩

/-- A public-API step never changes the circuit name, the configuration,
the event cap, or the bulkhead. -/
lemma BStep_frame {b b' : Breaker} (h : BStep b b') :
    b'.name = b.name ∧ b'.config = b.config ∧
    b'.max_events = b.max_events ∧ b'.bulkhead = b.bulkhead := by
  cases h with
  | callStep b t outcome fallback classifier =>
      obtain ⟨evs, st, hh⟩ := call_snd b t outcome fallback classifier
      rw [hh]
      exact ⟨rfl, rfl, rfl, rfl⟩
  | recordSuccessClose b t duration =>
      obtain ⟨evs, st, hh⟩ := record_success_and_maybe_close_snd b t duration
      rw [hh]
      exact ⟨rfl, rfl, rfl, rfl⟩
  | recordFailureTrip b t duration =>
      obtain ⟨evs, st, hh⟩ := record_failure_and_maybe_trip_snd b t duration
      rw [hh]
      exact ⟨rfl, rfl, rfl, rfl⟩
  | recordSuccessOnly b t duration => exact ⟨rfl, rfl, rfl, rfl⟩
  | recordFailureOnly b t duration => exact ⟨rfl, rfl, rfl, rfl⟩
  | checkTrip b t =>
      obtain ⟨evs, st, hh⟩ := check_and_trip_snd b t
      rw [hh]
      exact ⟨rfl, rfl, rfl, rfl⟩
  | resetStep b => exact ⟨rfl, rfl, rfl, rfl⟩

/-- Along any reachable path the configuration is constant. -/
lemma Reach_config {b0 b : Breaker} (hr : Reach b0 b) : b.config = b0.config := by
  induction hr with
  | refl => rfl
  | tail _ hstep ih => rw [(BStep_frame hstep).2.1, ih]

/-- `execute_call` never produces the `HalfOpenLimitReached` error: its
results are `ok` or `Execution`. -/
lemma execute_call_no_limit {T E : Type} (b : Breaker) (t : Times)
    (outcome : Except E T) (classifier : Option (E → ℚ → Bool)) (c : String) :
    (execute_call b t outcome classifier).1 ≠
      Except.error (CircuitError.HalfOpenLimitReached c) := by
  unfold execute_call
  rcases outcome with v | e <;> dsimp only <;> repeat' split
  all_goals simp

/-- With the invariant and a positive success threshold, `dispatch`
never produces `HalfOpenLimitReached`. -/
lemma dispatch_no_limit {T E : Type} (b : Breaker) (t : Times)
    (outcome : Except E T) (fallback : Option (Except E T))
    (classifier : Option (E → ℚ → Bool)) (c : String)
    (hstrong : StrongHO b) (hthr : 1 ≤ b.config.success_threshold) :
    (dispatch b t outcome fallback classifier).1 ≠
      Except.error (CircuitError.HalfOpenLimitReached c) := by
  rcases hstate : b.state with _ | oa | n
  · simp only [dispatch, hstate]
    exact execute_call_no_limit b t outcome classifier c
  · rcases fallback with _ | fr
    · simp [dispatch, hstate]
    · simp only [dispatch, hstate]
      rcases fr with v | e <;> simp [Except.mapError]
  · have hn : n < b.config.success_threshold := by
      rcases hstrong n hstate with h0 | h
      · omega
      · exact h
    simp only [dispatch, hstate]
    rw [if_neg (not_le.mpr hn)]
    exact execute_call_no_limit b t outcome classifier c

/-- C5: starting from a fresh breaker with `success_threshold ≥ 1`, no
sequence of public API operations can bring the breaker into a state in
which `call` returns `HalfOpenLimitReached`: the Close transition fires
the moment the threshold is reached, so a dispatched HalfOpen call
always sees `consecutive_successes` strictly below the threshold and
the defensive branch is unreachable. -/
theorem call_no_halfOpenLimit (b0 b : Breaker) (h0 : IsInitial b0)
    (hthr : 1 ≤ b0.config.success_threshold) (hr : Reach b0 b)
    {T E : Type} (t : Times) (outcome : Except E T)
    (fallback : Option (Except E T)) (classifier : Option (E → ℚ → Bool))
    (c : String) :
    (call b t outcome fallback classifier).1 ≠
      Except.error (CircuitError.HalfOpenLimitReached c) := by
  have hstrong : StrongHO b := StrongHO_reach h0 hr
  have hstrong1 : StrongHO (attempt_reset b t) := StrongHO_attempt_reset b t hstrong
  obtain ⟨evs0, st0, hra⟩ := attempt_reset_snd b t
  have hcfg1 : (attempt_reset b t).config = b.config := by rw [hra]
  have hthr1 : 1 ≤ (attempt_reset b t).config.success_threshold := by
    rw [hcfg1, Reach_config hr]
    exact hthr
  rcases hbh : b.bulkhead with _ | bh
  · simp only [call, hbh]
    exact dispatch_no_limit _ t outcome fallback classifier c hstrong1 hthr1
  · rcases htry : try_acquire bh with _ | x
    · simp only [call, hbh, htry]
      simp
    · simp only [call, hbh, htry]
      exact dispatch_no_limit _ t outcome fallback classifier c hstrong1 hthr1

/-- C2: in a reachable HalfOpen state, `consecutive_successes` never
exceeds the success threshold; and a successful admitted call in
HalfOpen increments `consecutive_successes` by exactly one, firing the
HalfOpen→Closed transition iff that increment brings it to exactly
`success_threshold` (an admitted call has `n` strictly below the
threshold, so a count past the threshold can never be reached). -/
theorem halfOpen_success_closes_at_threshold (b0 b : Breaker)
    (h0 : IsInitial b0) (hr : Reach b0 b) (n : ℕ)
    (hs : b.state = CState.HalfOpen n) :
    n ≤ b.config.success_threshold ∧
    ∀ (T E : Type) (t : Times) (v : T) (fallback : Option (Except E T))
      (classifier : Option (E → ℚ → Bool)),
      BulkheadAdmits b →
      n < b.config.success_threshold →
      ((call b t (Except.ok v : Except E T) fallback classifier).2.state =
        if n + 1 = b.config.success_threshold then CState.Closed
        else CState.HalfOpen (n + 1)) ∧
      ((call b t (Except.ok v : Except E T) fallback classifier).2.state =
          CState.Closed ↔
        n + 1 = b.config.success_threshold) := by
  constructor
  · rcases StrongHO_reach h0 hr n hs with h | h <;> omega
  · intro T E t v fallback classifier hadm hlt
    have hreset : attempt_reset b t = b := by
      simp [attempt_reset, hs]
    have hdisp : dispatch b t (Except.ok v : Except E T) fallback classifier =
        execute_call b t (Except.ok v : Except E T) classifier := by
      simp only [dispatch, hs]
      rw [if_neg (not_le.mpr hlt)]
    have hcall : call b t (Except.ok v : Except E T) fallback classifier =
        execute_call b t (Except.ok v : Except E T) classifier := by
      rcases hbh : b.bulkhead with _ | bh
      · simp [call, hbh, hreset, hdisp]
      · obtain ⟨x, hx⟩ := Option.ne_none_iff_exists'.mp (hadm bh hbh)
        simp [call, hbh, hx, hreset, hdisp]
    cases hcl : should_close b.config (n + 1) with
    | false =>
        have hlt2 : n + 1 < b.config.success_threshold := by
          unfold should_close at hcl
          simp at hcl
          omega
        have hst : (execute_call b t (Except.ok v : Except E T) classifier).2.state =
            CState.HalfOpen (n + 1) := by
          simp [execute_call, hs, hcl]
        rw [hcall, hst]
        refine ⟨by rw [if_neg (by omega)], ?_⟩
        constructor
        · intro hcc
          exact absurd hcc (by simp)
        · intro hcc
          omega
    | true =>
        have heq : n + 1 = b.config.success_threshold := by
          unfold should_close at hcl
          simp at hcl
          omega
        have hst : (execute_call b t (Except.ok v : Except E T) classifier).2.state =
            CState.Closed := by
          simp [execute_call, hs, hcl]
        rw [hcall, hst]
        exact ⟨by rw [if_pos heq], by simp [heq]⟩

/-! ### A concrete reachable HalfOpen breaker, for the witnesses -/

/-- Witness configuration: absolute threshold 1, success threshold 2. -/
def cfgPath : Config :=
  { failure_threshold := some 1
    failure_rate_threshold := none
    minimum_calls := 20
    failure_window_secs := 60
    half_open_timeout_secs := 30
    success_threshold := 2
    jitter_factor := 0 }

/-- The initial breaker of the witness path. -/
def pathB0 : Breaker :=
  { name := "api", config := cfgPath, max_events := 1000
    state := CState.Closed, events := [], bulkhead := none }

/-- Clock readings at 1 second. -/
def tOne : Times :=
  { guard_now := 1, start := 1, finish := 1, record := 1, trip_now := 1
    stamp := 1, jitter_draw := 0 }

/-- Clock readings at 40 seconds. -/
def tForty : Times :=
  { guard_now := 40, start := 40, finish := 40, record := 40, trip_now := 40
    stamp := 40, jitter_draw := 0 }

/-- After one recorded failure at time 1 the breaker trips to Open. -/
def pathB1 : Breaker := record_failure_and_maybe_trip pathB0 tOne 0

/-- At time 40 the timeout has lapsed; the call enters HalfOpen and its
success brings `consecutive_successes` to 1. -/
def pathB2 : Breaker :=
  (call pathB1 tForty (Except.ok (0 : ℕ)) (none : Option (Except ℕ ℕ)) none).2

lemma pathB1_eq : pathB1 =
    { name := "api", config := cfgPath, max_events := 1000
      state := CState.Open 1, events := [⟨EventKind.failure, 1, 0⟩]
      bulkhead := none } := by
  norm_num [pathB1, record_failure_and_maybe_trip, record_event, should_open,
    failure_count, success_count, count_events, pathB0, cfgPath, tOne]

lemma pathB2_eq : pathB2 =
    { name := "api", config := cfgPath, max_events := 1000
      state := CState.HalfOpen 1
      events := [⟨EventKind.failure, 1, 0⟩, ⟨EventKind.success, 40, 0⟩]
      bulkhead := none } := by
  rw [pathB2, pathB1_eq]
  norm_num [call, attempt_reset, dispatch, execute_call, timeout_elapsed,
    should_close, record_event, cfgPath, tForty]

lemma pathReach : Reach pathB0 pathB2 :=
  Relation.ReflTransGen.tail
    (Relation.ReflTransGen.single (BStep.recordFailureTrip pathB0 tOne 0))
    (BStep.callStep pathB1 tForty (Except.ok (0 : ℕ))
      (none : Option (Except ℕ ℕ)) none)

/-- Witness for C2 at the concrete reachable HalfOpen breaker
`pathB2` (`consecutive_successes = 1`, threshold 2): the next
successful call closes the circuit, and indeed `1 + 1` is exactly the
threshold. -/
theorem halfOpen_success_closes_at_threshold_witness :
    1 ≤ pathB2.config.success_threshold ∧
    ((call pathB2 tForty (Except.ok (0 : ℕ)) (none : Option (Except ℕ ℕ))
        none).2.state = CState.Closed ↔
      1 + 1 = pathB2.config.success_threshold) := by
  have h := halfOpen_success_closes_at_threshold pathB0 pathB2 rfl pathReach 1
    (by rw [pathB2_eq])
  refine ⟨h.1, ?_⟩
  exact (h.2 ℕ ℕ tForty 0 none none
    (by intro bh hbh; rw [pathB2_eq] at hbh; exact absurd hbh (by simp))
    (by rw [pathB2_eq]; norm_num [cfgPath])).2

/-- Witness for C5 at the concrete reachable HalfOpen breaker
`pathB2`. -/
theorem call_no_halfOpenLimit_witness :
    (call pathB2 tForty (Except.ok (0 : ℕ)) (none : Option (Except ℕ ℕ))
        none).1 ≠
      Except.error (CircuitError.HalfOpenLimitReached "api") :=
  call_no_halfOpenLimit pathB0 pathB2 rfl
    (by norm_num [pathB0, cfgPath]) pathReach tForty (Except.ok 0) none none "api"

end BreakerMachines
